import Mathlib

/-!
Verification of the variant-annotation tool (`ensembl_api_client.py`,
`annotate_variants.py`) against its specification.

The Python source is shallowly embedded:

* Python/JSON values are modelled by the inductive `Json`; a Python `dict`
  holding a variant record is modelled by `Dict`, an association list that
  keeps insertion order (Python 3.7+ dict semantics: updating an existing key
  keeps its position, a new key is appended).
* Fallible Python expressions are modelled in `Except PyErr`; the
  `except (IndexError, KeyError)` handlers of `update_variant_info` become
  `catchKI`, and the blanket `except Exception` of `perform_rest_action`
  becomes a total catch.
* Time (`time.time()`, `asyncio.sleep`) is modelled by rational numbers.
  All concurrent `_apply_rate_limit` calls are serialized by `self.lock`
  (the sleep happens while holding the lock), so a burst of admissions is a
  sequential fold `run_burst` in which each caller observes the clock at the
  instant the previous caller released the lock.
* The HTTP layer is modelled by `HttpOutcome`, one outcome per request sent;
  `perform_rest_action` records its observable events (`admitted` for the
  `_apply_rate_limit` call on line 61, `sent` for the GET, `slept` for
  `asyncio.sleep`).  The list of further outcomes bounds the 429-retry
  recursion; an exhausted list truncates it (the real client would keep
  retrying, which no claim exercises).
-/

/-- JSON-like values as produced by `response.json()`, also used for the
values stored in a variant record's dict. -/
inductive Json where
  | null
  | bool (b : Bool)
  | num (q : ℚ)
  | str (s : String)
  | arr (xs : List Json)
  | obj (kvs : List (String × Json))

/-- The Python exception classes that the source distinguishes. -/
inductive PyErr where
  | keyError
  | indexError
  | typeError
  | attributeError
deriving DecidableEq

/-- A Python dict with string keys: an insertion-ordered association list. -/
abbrev Dict := List (String × Json)

/-- Value stored under key `k`, if any (first match; a well-formed dict has
no duplicate keys). -/
def Dict.get : Dict → String → Option Json
  | [], _ => none
  | p :: d, k => if p.1 == k then some p.2 else Dict.get d k

/-- Python `d[k]` on a dict: `KeyError` when the key is absent. -/
def Dict.getItem (d : Dict) (k : String) : Except PyErr Json :=
  match Dict.get d k with
  | some v => .ok v
  | none => .error .keyError

/-- Python `d[k] = v`: replace in place when the key exists (keeping its
position; a dict holds each key at most once), append otherwise. -/
def Dict.insertOne : Dict → String → Json → Dict
  | [], k, v => [(k, v)]
  | p :: d, k, v =>
      if p.1 == k then (k, v) :: d else p :: Dict.insertOne d k v

/-- Python `d.update({...})`: insert each pair in order. -/
def Dict.update (d : Dict) (kvs : List (String × Json)) : Dict :=
  kvs.foldl (fun acc p => Dict.insertOne acc p.1 p.2) d

/-- Python list subscription `xs[i]` with an int (or int-valued) index:
negative indices count from the end, out-of-range raises `IndexError`,
a non-integer raises `TypeError`. -/
def listIndex (xs : List Json) (q : ℚ) : Except PyErr Json :=
  if q.den = 1 then
    let i : ℤ := q.num
    let j : ℤ := if i < 0 then i + xs.length else i
    if 0 ≤ j then
      match xs.get? j.toNat with
      | some v => .ok v
      | none => .error .indexError
    else .error .indexError
  else .error .typeError

/-- Python string subscription `s[i]`: yields a one-character string. -/
def strIndex (s : String) (q : ℚ) : Except PyErr Json :=
  if q.den = 1 then
    let i : ℤ := q.num
    let j : ℤ := if i < 0 then i + s.data.length else i
    if 0 ≤ j then
      match s.data.get? j.toNat with
      | some c => .ok (.str (String.mk [c]))
      | none => .error .indexError
    else .error .indexError
  else .error .typeError

/-- Python subscription `x[k]` for the value shapes the client touches:
dicts (JSON objects, whose keys are strings, so any other hashable key is
simply absent → `KeyError`; unhashable keys → `TypeError`), lists, strings;
subscripting `None`, a number or a bool raises `TypeError`. -/
def jGetItem : Json → Json → Except PyErr Json
  | .obj kvs, .str k => Dict.getItem kvs k
  | .obj _, .null => .error .keyError
  | .obj _, .bool _ => .error .keyError
  | .obj _, .num _ => .error .keyError
  | .obj _, .arr _ => .error .typeError
  | .obj _, .obj _ => .error .typeError
  | .arr xs, .num q => listIndex xs q
  | .arr xs, .bool b => listIndex xs (if b then 1 else 0)
  | .arr _, _ => .error .typeError
  | .str s, .num q => strIndex s q
  | .str s, .bool b => strIndex s (if b then 1 else 0)
  | .str _, _ => .error .typeError
  | .null, _ => .error .typeError
  | .bool _, _ => .error .typeError
  | .num _, _ => .error .typeError

/-- Python `x.get(k)` (dict method, default `None`); on a non-dict value the
attribute lookup raises `AttributeError`. -/
def jGet : Json → String → Except PyErr Json
  | .obj kvs, k =>
      .ok (match Dict.get kvs k with
           | some v => v
           | none => .null)
  | _, _ => .error .attributeError

/-- The empty dict `\x7b\x7d` returned by `perform_rest_action` on failure. -/
def emptyDict : Json := .obj []

/-- Catch `(IndexError, KeyError)` as in `update_variant_info`'s two
`try` blocks, substituting a default; other exceptions propagate. -/
def catchKI (x : Except PyErr Json) (dflt : Json) : Except PyErr Json :=
  match x with
  | .ok v => .ok v
  | .error .keyError => .ok dflt
  | .error .indexError => .ok dflt
  | .error e => .error e

/-- Line 120: `vep_info["transcript_consequences"][0]`. -/
def tc_lookup (vep_info : Json) : Except PyErr Json := do
  let a ← jGetItem vep_info (.str "transcript_consequences")
  jGetItem a (.num 0)

/-- Line 127:
`vep_info["colocated_variants"][-1]["frequencies"][variant["alt"]]["af"]`,
subexpressions evaluated left to right as in Python. -/
def maf_lookup (vep_info : Json) (variant : Dict) : Except PyErr Json := do
  let cv ← jGetItem vep_info (.str "colocated_variants")
  let lastCv ← jGetItem cv (.num (-1))
  let freqs ← jGetItem lastCv (.str "frequencies")
  let alt ← Dict.getItem variant "alt"
  let byAllele ← jGetItem freqs alt
  jGetItem byAllele (.str "af")

/-- Lines 118-122: the `transcript_consequences` extraction with its
`except (IndexError, KeyError)` handler, default `\x7b\x7d`. -/
def extract_tc (vep_info : Json) : Except PyErr Json :=
  catchKI (tc_lookup vep_info) (.obj [])

/-- Lines 124-129: the minor-allele-frequency extraction with its
`except (IndexError, KeyError)` handler, default `None`. -/
def extract_maf (vep_info : Json) (variant : Dict) : Except PyErr Json :=
  catchKI (maf_lookup vep_info variant) .null

/-- The six annotation field names written by `update_variant_info`. -/
def annotation_keys : List String :=
  ["gene_id", "gene_symbol", "biotype", "impact",
   "most_severe_consequence", "minor_allele_frequency"]

/-- The dict literal passed to `variant.update` on lines 132-139, in the
source's key order. -/
def annotation_update (gene_id gene_symbol biotype impact msc maf : Json) :
    List (String × Json) :=
  [("gene_id", gene_id), ("gene_symbol", gene_symbol),
   ("biotype", biotype), ("impact", impact),
   ("most_severe_consequence", msc), ("minor_allele_frequency", maf)]

/-- Lines 117-141 of `ensembl_api_client.py`: extract consequences and MAF
from the (already fetched) response object `vep_info`, then
`variant.update(...)` with the six annotation fields, in the source's
evaluation order. -/
def update_variant_info (vep_info : Json) (variant : Dict) :
    Except PyErr Dict := do
  let tc ← extract_tc vep_info
  let maf ← extract_maf vep_info variant
  let gene_id ← jGet tc "gene_id"
  let gene_symbol ← jGet tc "gene_symbol"
  let biotype ← jGet tc "biotype"
  let impact ← jGet tc "impact"
  let msc ← jGet vep_info "most_severe_consequence"
  .ok (Dict.update variant
    (annotation_update gene_id gene_symbol biotype impact msc maf))

/-- Outcome of one HTTP GET: a 2xx response with a parsed JSON body, a
non-2xx status (which `raise_for_status` turns into a
`ClientResponseError`, carrying an optional `Retry-After` header value),
or a transport-level / body-parse failure (any other exception). -/
inductive HttpOutcome where
  | success (body : Json)
  | httpError (status : ℕ) (retryAfter : Option ℚ)
  | transportFailure

/-- Observable events of `perform_rest_action`: the rate-limiter admission
on line 61, the GET on line 64, and the `asyncio.sleep` on line 73. -/
inductive Ev where
  | admitted
  | sent (url : String)
  | slept (d : ℚ)
deriving DecidableEq

/-- Line 66: `(await response.json())[0]`, with every failure of the
subscription caught by the blanket `except Exception` → `\x7b\x7d`. -/
def jElem0 (body : Json) : Json :=
  match jGetItem body (.num 0) with
  | .ok v => v
  | .error _ => emptyDict

/-- Line 59: `urlencode(params)` for flat string parameters. -/
def urlencode (params : List (String × String)) : String :=
  String.intercalate "&" (params.map (fun p => p.1 ++ "=" ++ p.2))

/-- Lines 57-59: build the request URL. -/
def build_url (server endpoint : String) (params : List (String × String)) :
    String :=
  server ++ endpoint ++
    (if params.isEmpty then "" else "?" ++ urlencode params)

/-- Lines 61-81 of `ensembl_api_client.py`.  `o` is the outcome of the
request sent now, `rest` the outcomes of any further requests (consumed by
the 429 retry on line 74).  Returns the emitted events and the dict the
function returns: `body[0]` on success (any subscription failure caught →
`\x7b\x7d`), retry after sleeping on 429 with a `Retry-After` header, and
`\x7b\x7d` for every other outcome (429 without the header, 400, other
statuses, transport failures). -/
def perform_rest_action (url : String) :
    HttpOutcome → List HttpOutcome → List Ev × Json
  | .success body, _ => ([.admitted, .sent url], jElem0 body)
  | .httpError status retryAfter, rest =>
      if status = 429 then
        match retryAfter, rest with
        | some d, r :: rs =>
            let t := perform_rest_action url r rs
            (.admitted :: .sent url :: .slept d :: t.1, t.2)
        | some d, [] => ([.admitted, .sent url, .slept d], emptyDict)
        | none, _ => ([.admitted, .sent url], emptyDict)
      else ([.admitted, .sent url], emptyDict)
  | .transportFailure, _ => ([.admitted, .sent url], emptyDict)

/-- Python `str(x)` as used by the f-string on line 113 (only the string
case is ever reached: `hgvs` is built as a string by the record source). -/
def pyStr : Json → String
  | .null => "None"
  | .bool true => "True"
  | .bool false => "False"
  | .num q => toString q
  | .str s => s
  | .arr _ => "[...]"
  | .obj _ => "\x7b...\x7d"

/-- The constructor default `server` (line 31). -/
def default_server : String := "https://grch37.rest.ensembl.org"

/-- Lines 110-141 as a whole: build the endpoint from `variant["hgvs"]`
(a `KeyError` here is not inside any `try` and propagates), perform the
request, then merge the response into the record. -/
def fetch_variant (server : String) (o : HttpOutcome) (rest : List HttpOutcome)
    (variant : Dict) : Except PyErr (List Ev × Dict) := do
  let hgvs ← Dict.getItem variant "hgvs"
  let url := build_url server ("/vep/human/hgvs/" ++ pyStr hgvs)
    [("pick", "1")]
  let t := perform_rest_action url o rest
  let out ← update_variant_info t.2 variant
  .ok (t.1, out)

/-- The limiter's shared state (lines 27-28, initialised 0 and 0 on
lines 40-41): request count in the current window and the timestamp of the
last window reset. -/
structure LimState where
  req_count : ℕ
  last_req : ℚ
deriving DecidableEq

/-- Lines 88-95 of `_apply_rate_limit`, executed with the lock held.
`now` is `time.time()` on entry; the first component of the result is the
time at which the call returns (= the admission time; it exceeds `now`
exactly when the call slept). -/
def apply_rate_limit (reqs_per_sec : ℕ) (now : ℚ) (s : LimState) :
    ℚ × LimState :=
  if s.req_count ≥ reqs_per_sec then
    let delta := now - s.last_req
    let wake := if delta < 1 then now + (1 - delta) else now
    (wake, { req_count := 1, last_req := wake })
  else
    (now, { req_count := s.req_count + 1, last_req := s.last_req })

/-- A burst of `n` concurrent `_apply_rate_limit` calls starting at time
`now`: the lock serializes them, and each caller observes the clock at the
instant the previous caller returned (sleeps happen with the lock held).
Returns the admission times in order and the final limiter state. -/
def run_burst (reqs_per_sec : ℕ) : ℚ → LimState → ℕ → List ℚ × LimState
  | _, s, 0 => ([], s)
  | now, s, n + 1 =>
      let a := apply_rate_limit reqs_per_sec now s
      let t := run_burst reqs_per_sec a.1 a.2 n
      (a.1 :: t.1, t.2)

/-- The `for future in as_completed(...)` loop (lines 68-71): await each
completed task in turn; the first task that raises aborts the batch. -/
def collect_results : List (Except PyErr Dict) → Except PyErr (List Dict)
  | [] => .ok []
  | t :: ts => do
      let r ← t
      let rs ← collect_results ts
      .ok (r :: rs)

/-- Lines 60-73 of `annotate_variants.py`: one `update_variant_info` task
per variant (`vepOf i` is the response object task `i` ends up with), then
collect results in completion order.  `order` is the completion order as a
list of task indices; indices out of range are impossible for a genuine
completion order (`order` a permutation of `range n`) and are skipped. -/
def process_variants (vepOf : ℕ → Json) (order : List ℕ)
    (variants : List Dict) : Except PyErr (List Dict) :=
  let tasks := (variants.enum).map
    (fun p => update_variant_info (vepOf p.1) p.2)
  collect_results (order.filterMap (fun i => tasks.get? i))

/-- Lines 24-46 of `annotate_variants.py`: on an empty result list, return
without writing (`None`); otherwise write the header row taken from the
first record's field names followed by the rows. -/
def write_to_tsv (annotated_variants : List Dict) :
    Option (List String × List Dict) :=
  match annotated_variants with
  | [] => none
  | first :: rest => some (first.map Prod.fst, first :: rest)

/-- Lines 84-95 of `annotate_variants.py` (`main`): run the pipeline; any
exception leads to `sys.exit(1)` before the TSV is written, otherwise the
annotated list is handed unchanged to `write_to_tsv` and the process exits
with status 0. -/
def main_run (vepOf : ℕ → Json) (order : List ℕ) (variants : List Dict) :
    ℕ × Option (List String × List Dict) :=
  match process_variants vepOf order variants with
  | .ok ann => (0, write_to_tsv ann)
  | .error _ => (1, none)

/-- The identifying fields of a record (chromosome, position, reference
allele, alternate allele), as produced by the record source. -/
def id_fields (d : Dict) :
    Option Json × Option Json × Option Json × Option Json :=
  (Dict.get d "chrom", Dict.get d "pos", Dict.get d "ref", Dict.get d "alt")

/-! ### Association-list (dict) lemmas -/

theorem Dict.get_insertOne_self (d : Dict) (k : String) (v : Json) :
    Dict.get (Dict.insertOne d k v) k = some v := by
  induction d with
  | nil => simp [Dict.insertOne, Dict.get]
  | cons p d ih =>
    by_cases h : p.1 = k
    · simp [Dict.insertOne, Dict.get, h]
    · simp [Dict.insertOne, Dict.get, h, ih]

theorem Dict.get_insertOne_ne (d : Dict) (k k' : String) (v : Json)
    (h : k' ≠ k) : Dict.get (Dict.insertOne d k v) k' = Dict.get d k' := by
  have hk : ¬ k = k' := fun h' => h h'.symm
  induction d with
  | nil => simp [Dict.insertOne, Dict.get, hk]
  | cons p d ih =>
    by_cases hp : p.1 = k
    · have hpk : ¬ p.1 = k' := by rw [hp]; exact hk
      simp [Dict.insertOne, Dict.get, hp, hpk, hk]
    · by_cases hq : p.1 = k'
      · simp only [Dict.insertOne]
        rw [if_neg (by simp [hp])]
        simp [Dict.get, hq]
      · simp [Dict.insertOne, Dict.get, hp, hq, ih]

theorem Dict.keys_insertOne (d : Dict) (k : String) (v : Json) :
    (Dict.insertOne d k v).map Prod.fst =
      if k ∈ d.map Prod.fst then d.map Prod.fst
      else d.map Prod.fst ++ [k] := by
  induction d with
  | nil => simp [Dict.insertOne]
  | cons p d ih =>
    by_cases h : p.1 = k
    · simp [Dict.insertOne, h]
    · have hk : ¬ k = p.1 := fun h' => h h'.symm
      simp only [Dict.insertOne]
      rw [if_neg (by simp [h])]
      simp only [List.map_cons, List.mem_cons]
      rw [ih]
      by_cases hm : k ∈ d.map Prod.fst
      · simp [hm]
      · simp [hm, hk]

theorem Dict.nodup_keys_insertOne (d : Dict) (k : String) (v : Json)
    (h : (d.map Prod.fst).Nodup) :
    ((Dict.insertOne d k v).map Prod.fst).Nodup := by
  rw [Dict.keys_insertOne]
  by_cases hm : k ∈ d.map Prod.fst
  · simpa [hm] using h
  · simp only [hm, if_false]
    simp [List.nodup_append, h, hm]

theorem Dict.nodup_keys_update (d : Dict) (kvs : List (String × Json))
    (h : (d.map Prod.fst).Nodup) :
    ((Dict.update d kvs).map Prod.fst).Nodup := by
  induction kvs generalizing d with
  | nil => simpa [Dict.update] using h
  | cons q kvs ih =>
    simp only [Dict.update, List.foldl_cons] at *
    exact ih _ (Dict.nodup_keys_insertOne d q.1 q.2 h)

theorem Dict.get_update_of_not_mem (d : Dict) (kvs : List (String × Json))
    (k : String) (h : k ∉ kvs.map Prod.fst) :
    Dict.get (Dict.update d kvs) k = Dict.get d k := by
  induction kvs generalizing d with
  | nil => simp [Dict.update]
  | cons q kvs ih =>
    simp only [List.map_cons, List.mem_cons] at h
    push_neg at h
    simp only [Dict.update, List.foldl_cons] at *
    rw [ih _ h.2, Dict.get_insertOne_ne _ _ _ _ h.1]

theorem Dict.get_update_mem (d : Dict) (kvs : List (String × Json))
    (k : String) (v : Json) (hnd : (kvs.map Prod.fst).Nodup)
    (hmem : (k, v) ∈ kvs) :
    Dict.get (Dict.update d kvs) k = some v := by
  induction kvs generalizing d with
  | nil => cases hmem
  | cons q kvs ih =>
    simp only [List.map_cons, List.nodup_cons] at hnd
    rcases List.mem_cons.mp hmem with hq | hq
    · subst hq
      simp only [Dict.update, List.foldl_cons]
      have hk : k ∉ kvs.map Prod.fst := by simpa using hnd.1
      show Dict.get (Dict.update (Dict.insertOne d k v) kvs) k = some v
      rw [Dict.get_update_of_not_mem _ _ _ hk, Dict.get_insertOne_self]
    · simp only [Dict.update, List.foldl_cons]
      exact ih (Dict.insertOne d q.1 q.2) hnd.2 hq

/-! ### Lemmas about `update_variant_info` -/

theorem Dict.keys_annotation_update
    (g1 g2 g3 g4 g5 g6 : Json) :
    (annotation_update g1 g2 g3 g4 g5 g6).map Prod.fst = annotation_keys := by
  simp [annotation_update, annotation_keys]

theorem Dict.get_annotation_update (d : Dict) (g1 g2 g3 g4 g5 g6 : Json) :
    Dict.get (Dict.update d (annotation_update g1 g2 g3 g4 g5 g6))
        "gene_id" = some g1 ∧
    Dict.get (Dict.update d (annotation_update g1 g2 g3 g4 g5 g6))
        "gene_symbol" = some g2 ∧
    Dict.get (Dict.update d (annotation_update g1 g2 g3 g4 g5 g6))
        "biotype" = some g3 ∧
    Dict.get (Dict.update d (annotation_update g1 g2 g3 g4 g5 g6))
        "impact" = some g4 ∧
    Dict.get (Dict.update d (annotation_update g1 g2 g3 g4 g5 g6))
        "most_severe_consequence" = some g5 ∧
    Dict.get (Dict.update d (annotation_update g1 g2 g3 g4 g5 g6))
        "minor_allele_frequency" = some g6 := by
  have hnd : ((annotation_update g1 g2 g3 g4 g5 g6).map Prod.fst).Nodup := by
    rw [Dict.keys_annotation_update]; decide
  refine ⟨?_, ?_, ?_, ?_, ?_, ?_⟩ <;>
    exact Dict.get_update_mem _ _ _ _ hnd (by simp [annotation_update])

theorem Dict.get_annotation_update_ne (d : Dict) (g1 g2 g3 g4 g5 g6 : Json)
    (k : String) (hk : k ∉ annotation_keys) :
    Dict.get (Dict.update d (annotation_update g1 g2 g3 g4 g5 g6)) k =
      Dict.get d k := by
  apply Dict.get_update_of_not_mem
  rw [Dict.keys_annotation_update]
  exact hk

theorem extract_maf_congr (vep : Json) (v v' : Dict)
    (h : Dict.get v' "alt" = Dict.get v "alt") :
    extract_maf vep v' = extract_maf vep v := by
  unfold extract_maf maf_lookup Dict.getItem
  rw [h]

/-- Inversion: a successful `update_variant_info` run merges exactly the
six-field dict literal into the record, and the merged values depend on the
record only through its `alt` field. -/
theorem update_variant_info_ok (vep : Json) (v out : Dict)
    (h : update_variant_info vep v = .ok out) :
    ∃ g1 g2 g3 g4 g5 g6, out = Dict.update v
        (annotation_update g1 g2 g3 g4 g5 g6) ∧
      ∀ v' : Dict, Dict.get v' "alt" = Dict.get v "alt" →
        update_variant_info vep v' = .ok (Dict.update v'
          (annotation_update g1 g2 g3 g4 g5 g6)) := by
  simp only [update_variant_info, bind, Except.bind] at h
  cases htc : extract_tc vep with
  | error e => rw [htc] at h; cases h
  | ok tc =>
  rw [htc] at h
  dsimp only at h
  cases hmaf : extract_maf vep v with
  | error e => rw [hmaf] at h; cases h
  | ok maf =>
  rw [hmaf] at h
  dsimp only at h
  cases hg1 : jGet tc "gene_id" with
  | error e => rw [hg1] at h; cases h
  | ok g1 =>
  rw [hg1] at h
  dsimp only at h
  cases hg2 : jGet tc "gene_symbol" with
  | error e => rw [hg2] at h; cases h
  | ok g2 =>
  rw [hg2] at h
  dsimp only at h
  cases hg3 : jGet tc "biotype" with
  | error e => rw [hg3] at h; cases h
  | ok g3 =>
  rw [hg3] at h
  dsimp only at h
  cases hg4 : jGet tc "impact" with
  | error e => rw [hg4] at h; cases h
  | ok g4 =>
  rw [hg4] at h
  dsimp only at h
  cases hg5 : jGet vep "most_severe_consequence" with
  | error e => rw [hg5] at h; cases h
  | ok g5 =>
  rw [hg5] at h
  dsimp only at h
  refine ⟨g1, g2, g3, g4, g5, maf, (Except.ok.injEq _ _ ▸ h).symm, ?_⟩
  intro v' halt
  simp only [update_variant_info, bind, Except.bind]
  rw [htc]
  dsimp only
  rw [extract_maf_congr vep v v' halt, hmaf]
  dsimp only
  rw [hg1]
  dsimp only
  rw [hg2]
  dsimp only
  rw [hg3]
  dsimp only
  rw [hg4]
  dsimp only
  rw [hg5]

/-- On the empty response payload (what `perform_rest_action` returns for
every absorbed failure) the merge sets all six annotation fields to null,
for any record. -/
theorem update_variant_info_emptyDict (v : Dict) :
    update_variant_info emptyDict v = .ok (Dict.update v
      (annotation_update .null .null .null .null .null .null)) := rfl

/-! ### Lemmas about the rate limiter -/

theorem apply_rate_limit_fst_ge (C : ℕ) (now : ℚ) (s : LimState) :
    now ≤ (apply_rate_limit C now s).1 := by
  unfold apply_rate_limit
  by_cases h : s.req_count ≥ C
  · rw [if_pos h]
    by_cases hd : now - s.last_req < 1
    · simp only [if_pos hd]
      linarith
    · simp only [if_neg hd]
      exact le_refl now
  · rw [if_neg h]

theorem apply_rate_limit_reset_ge (C : ℕ) (now : ℚ) (s : LimState)
    (h : s.req_count ≥ C) :
    s.last_req + 1 ≤ (apply_rate_limit C now s).1 := by
  unfold apply_rate_limit
  rw [if_pos h]
  by_cases hd : now - s.last_req < 1
  · simp only [if_pos hd]
    linarith
  · simp only [if_neg hd]
    push_neg at hd
    linarith

theorem run_burst_mono (C : ℕ) (n : ℕ) (now : ℚ) (s : LimState) :
    ∀ t ∈ (run_burst C now s n).1, now ≤ t := by
  induction n generalizing now s with
  | zero => simp [run_burst]
  | succ n ih =>
    intro t ht
    simp only [run_burst] at ht
    rcases List.mem_cons.mp ht with rfl | ht
    · exact apply_rate_limit_fst_ge C now s
    · exact le_trans (apply_rate_limit_fst_ge C now s)
        (ih (apply_rate_limit C now s).1 (apply_rate_limit C now s).2 t ht)

/-- C1 (amended): the limiter enforces a fixed-window bound, not a sliding
one: from any state whose counter holds `req_count ≤ C` admissions for the
window that started at the recorded timestamp `last_req`, a burst admits at
most `C - req_count` further calls before time `last_req + 1`; in
particular at most `C` requests are admitted within one second of each
window reset.  (A sliding one-second window can still observe up to `2·C`
admissions across a window boundary — see the counterexample.) -/
theorem claim_C1_fixed_window_bound (C n : ℕ) (now : ℚ) (s : LimState)
    (h : s.req_count ≤ C) :
    ((run_burst C now s n).1.filter
        (fun t => decide (t < s.last_req + 1))).length + s.req_count ≤ C := by
  induction n generalizing now s with
  | zero => simpa [run_burst] using h
  | succ n ih =>
    by_cases hc : s.req_count ≥ C
    · have h1 : s.last_req + 1 ≤ (apply_rate_limit C now s).1 :=
        apply_rate_limit_reset_ge C now s hc
      have hcount : s.req_count = C := le_antisymm h hc
      simp only [run_burst]
      have hfilter :
          (((apply_rate_limit C now s).1 ::
              (run_burst C (apply_rate_limit C now s).1
                (apply_rate_limit C now s).2 n).1).filter
            (fun t => decide (t < s.last_req + 1))) = [] := by
        rw [List.filter_eq_nil_iff]
        intro t ht
        rcases List.mem_cons.mp ht with rfl | ht
        · simpa using not_lt.mpr h1
        · have h2 := run_burst_mono C n (apply_rate_limit C now s).1
            (apply_rate_limit C now s).2 t ht
          simpa using not_lt.mpr (by linarith)
      rw [hfilter]
      simpa using h
    · push_neg at hc
      have ha1 : (apply_rate_limit C now s).1 = now := by
        unfold apply_rate_limit
        rw [if_neg (not_le.mpr hc)]
      have ha2 : (apply_rate_limit C now s).2 =
          ⟨s.req_count + 1, s.last_req⟩ := by
        unfold apply_rate_limit
        rw [if_neg (not_le.mpr hc)]
      simp only [run_burst, ha1, ha2]
      have ih' := ih now ⟨s.req_count + 1, s.last_req⟩ hc
      simp only at ih'
      by_cases hp : now < s.last_req + 1
      · simp only [List.filter_cons, hp, decide_True, if_true, List.length_cons]
        omega
      · simp only [List.filter_cons, hp, decide_False, Bool.false_eq_true, if_false]
        omega

/-- C1 counterexample: with the default ceiling 10 and the initial limiter
state (`req_count = 0`, `last_req = 0`), a burst of 11 concurrent calls at
wall-time 5 is admitted entirely at time 5 — the first window reset is free
because `last_req` starts at 0 — so the sliding (indeed, instantaneous)
one-second window `[5, 6)` observes 11 > 10 admitted calls, refuting the
claimed sliding-window invariant. -/
theorem claim_C1_counterexample :
    10 <
      ((run_burst 10 5 ⟨0, 0⟩ 11).1.filter
        (fun t => decide ((5:ℚ) ≤ t) && decide (t < 5 + 1))).length := by
  have h : run_burst 10 5 ⟨0, 0⟩ 11 = (List.replicate 11 5, ⟨1, 5⟩) := by
    norm_num [run_burst, apply_rate_limit, List.replicate]
  rw [h]
  norm_num [List.filter_replicate]

/-- Witness for the fixed-window bound: a fresh window at time 5 with a
burst of 25 calls admits at most 10 before time 6. -/
theorem claim_C1_fixed_window_bound_witness :
    (LimState.mk 0 5).req_count ≤ 10 ∧
      ((run_burst 10 5 (LimState.mk 0 5) 25).1.filter
          (fun t => decide (t < (LimState.mk 0 5).last_req + 1))).length +
        (LimState.mk 0 5).req_count ≤ 10 :=
  ⟨by decide, claim_C1_fixed_window_bound 10 25 5 (LimState.mk 0 5) (by decide)⟩

/-! ### Absorbed failures and the annotation merge -/

theorem perform_rest_action_success (url : String) (body : Json)
    (rest : List HttpOutcome) :
    perform_rest_action url (.success body) rest =
      ([.admitted, .sent url], jElem0 body) := by
  cases rest <;> rfl

theorem perform_rest_action_transport (url : String)
    (rest : List HttpOutcome) :
    perform_rest_action url .transportFailure rest =
      ([.admitted, .sent url], emptyDict) := by
  cases rest <;> rfl

theorem perform_rest_action_non429 (url : String) (s : ℕ)
    (ra : Option ℚ) (rest : List HttpOutcome) (h : s ≠ 429) :
    perform_rest_action url (.httpError s ra) rest =
      ([.admitted, .sent url], emptyDict) := by
  rw [perform_rest_action.eq_def]
  dsimp only
  rw [if_neg h]

theorem perform_rest_action_429_none (url : String)
    (rest : List HttpOutcome) :
    perform_rest_action url (.httpError 429 none) rest =
      ([.admitted, .sent url], emptyDict) := by
  cases rest <;> rfl

theorem perform_rest_action_429_retry (url : String) (d : ℚ)
    (r : HttpOutcome) (rs : List HttpOutcome) :
    perform_rest_action url (.httpError 429 (some d)) (r :: rs) =
      (.admitted :: .sent url :: .slept d ::
          (perform_rest_action url r rs).1,
        (perform_rest_action url r rs).2) := rfl


theorem update_emptyDict_nulls (v : Dict) :
    ∀ k ∈ annotation_keys,
      Dict.get (Dict.update v
        (annotation_update .null .null .null .null .null .null)) k =
        some .null := by
  intro k hk
  have hA := Dict.get_annotation_update v .null .null .null .null .null .null
  simp only [annotation_keys, List.mem_cons, List.not_mem_nil, or_false] at hk
  rcases hk with rfl | rfl | rfl | rfl | rfl | rfl
  · exact hA.1
  · exact hA.2.1
  · exact hA.2.2.1
  · exact hA.2.2.2.1
  · exact hA.2.2.2.2.1
  · exact hA.2.2.2.2.2

/-- Scenario A's mock server body (spec §8). -/
def scenarioA_response : Json := .arr [.obj
  [("transcript_consequences", .arr [.obj
     [("gene_id", .str "G1"), ("gene_symbol", .str "GENE1"),
      ("biotype", .str "protein_coding"), ("impact", .str "MODERATE")]]),
   ("most_severe_consequence", .str "missense_variant"),
   ("colocated_variants", .arr [.obj
     [("frequencies", .obj [("T", .obj [("af", .num (1/20))])])]])]]

/-- The variant record of Scenario A (identifier `1:g.100A>T`), as the
record source would produce it. -/
def scenarioA_variant : Dict :=
  [("chrom", .str "1"), ("pos", .num 100), ("ref", .str "A"),
   ("alt", .str "T"), ("hgvs", .str "1:g.100A>T")]

/-- C3 (amended): ordinary remote-service failures whose payload reduces to
the empty dict — any non-429 HTTP error status, any transport-level or
body-parse failure, and any 2xx body whose element-0 extraction yields the
empty dict (non-array bodies, empty arrays) — are absorbed inside the
client: `fetch_variant` returns normally, the request produces the empty
annotation payload, and the record comes back with all six annotation
fields null.  (A 2xx body whose first element is a non-object value is NOT
absorbed: the merge raises a `TypeError` that escapes to the orchestrator —
see the counterexample.) -/
theorem claim_C3_failures_absorbed (server : String) (o : HttpOutcome)
    (rest : List HttpOutcome) (v : Dict) (hj : Json)
    (hv : Dict.getItem v "hgvs" = .ok hj)
    (ho : (∃ s ra, o = .httpError s ra ∧ s ≠ 429) ∨ o = .transportFailure ∨
          (∃ b, o = .success b ∧ jElem0 b = emptyDict)) :
    ∃ evs, fetch_variant server o rest v = .ok (evs,
        Dict.update v (annotation_update .null .null .null .null .null .null))
      ∧ (perform_rest_action
          (build_url server ("/vep/human/hgvs/" ++ pyStr hj) [("pick", "1")])
          o rest).2 = emptyDict
      ∧ ∀ k ∈ annotation_keys,
          Dict.get (Dict.update v
            (annotation_update .null .null .null .null .null .null)) k =
            some .null := by
  have hpay : ∀ u, (perform_rest_action u o rest).2 = emptyDict := by
    intro u
    rcases ho with ⟨s, ra, rfl, hs⟩ | rfl | ⟨b, rfl, hb⟩
    · rw [perform_rest_action_non429 u s ra rest hs]
    · rw [perform_rest_action_transport]
    · rw [perform_rest_action_success]
      exact hb
  have hfetch : fetch_variant server o rest v = .ok
      ((perform_rest_action
          (build_url server ("/vep/human/hgvs/" ++ pyStr hj) [("pick", "1")])
          o rest).1,
        Dict.update v
          (annotation_update .null .null .null .null .null .null)) := by
    simp only [fetch_variant, bind, Except.bind, hv]
    rw [hpay (build_url server ("/vep/human/hgvs/" ++ pyStr hj)
      [("pick", "1")]), update_variant_info_emptyDict v]
  exact ⟨_, hfetch, hpay _, update_emptyDict_nulls v⟩

/-- Witness: an HTTP 500 on Scenario A's record is absorbed with nulls. -/
theorem claim_C3_failures_absorbed_witness :
    Dict.getItem scenarioA_variant "hgvs" = .ok (.str "1:g.100A>T") ∧
    ∃ evs, fetch_variant default_server (.httpError 500 none) []
        scenarioA_variant = .ok (evs, Dict.update scenarioA_variant
          (annotation_update .null .null .null .null .null .null))
      ∧ (perform_rest_action
          (build_url default_server
            ("/vep/human/hgvs/" ++ pyStr (.str "1:g.100A>T"))
            [("pick", "1")])
          (.httpError 500 none) []).2 = emptyDict
      ∧ ∀ k ∈ annotation_keys,
          Dict.get (Dict.update scenarioA_variant
            (annotation_update .null .null .null .null .null .null)) k =
            some .null :=
  ⟨rfl, claim_C3_failures_absorbed default_server (.httpError 500 none) []
    scenarioA_variant (.str "1:g.100A>T") rfl
    (Or.inl ⟨500, none, rfl, by decide⟩)⟩

/-- C3 counterexample: the malformed 2xx body `[5]` (an array whose single
element is not an object) is NOT absorbed: `update_variant_info` subscripts
the integer 5, raising a `TypeError` that escapes the client — contradicting
the claim that no ordinary remote-service failure escapes as an exception. -/
theorem claim_C3_counterexample :
    fetch_variant default_server (.success (.arr [.num 5])) []
      scenarioA_variant = .error .typeError := rfl

/-- C4: on HTTP 429 carrying `Retry-After: d`, the client sleeps exactly
`d` (hence at least `d`) seconds and then re-issues the identical request —
same URL, same parameters — which passes through the rate limiter as a new
admitted call; when the retry succeeds, exactly one retry occurs. -/
theorem claim_C4_retry_after (url : String) (d : ℚ) (body : Json)
    (rest : List HttpOutcome) :
    perform_rest_action url (.httpError 429 (some d)) (.success body :: rest)
      = ([.admitted, .sent url, .slept d, .admitted, .sent url],
         jElem0 body) := by
  rw [perform_rest_action_429_retry, perform_rest_action_success]

/-- C10: on HTTP 429 without a `Retry-After` header the client neither
sleeps nor retries: a single admitted request is sent, the empty payload
is returned, and the merge leaves the record with all six annotation
fields null. -/
theorem claim_C10_429_without_header (url : String) (rest : List HttpOutcome) :
    perform_rest_action url (.httpError 429 none) rest
      = ([.admitted, .sent url], emptyDict) ∧
    ∀ v : Dict,
      update_variant_info (perform_rest_action url (.httpError 429 none)
          rest).2 v =
        .ok (Dict.update v
          (annotation_update .null .null .null .null .null .null)) ∧
      ∀ k ∈ annotation_keys,
        Dict.get (Dict.update v
          (annotation_update .null .null .null .null .null .null)) k =
          some .null := by
  refine ⟨perform_rest_action_429_none url rest,
    fun v => ⟨?_, update_emptyDict_nulls v⟩⟩
  rw [perform_rest_action_429_none]
  exact update_variant_info_emptyDict v

/-- A lookup that fails in a way the source's `except (IndexError,
KeyError)` handlers catch: a missing key anywhere along the extraction
path, or an array too short for the requested index. -/
def lookup_failure (x : Except PyErr Json) : Prop :=
  x = .error .keyError ∨ x = .error .indexError

/-- C5 (amended): whenever the `transcript_consequences[0]` lookup or the
minor-allele-frequency lookup fails with a missing key or a too-short
array (in particular when `transcript_consequences` or
`colocated_variants` is missing or empty), `update_variant_info` returns
the record without raising and with the corresponding annotation fields —
the four consequence fields, respectively `minor_allele_frequency` — set
to null; the lookup failure itself is never propagated.  This holds
provided the other extraction path does not raise an error the handlers
cannot catch: its lookup must either also fail with `KeyError`/`IndexError`
or succeed, with `transcript_consequences[0]` an object when that lookup
succeeds.  (Without that proviso the claim is false: a response whose
`transcript_consequences[0]` is a non-object value raises an uncaught
`AttributeError` even when `colocated_variants` is missing — see the
counterexample.) -/
theorem claim_C5_graceful_degradation (kvs : List (String × Json))
    (v : Dict)
    (htc : lookup_failure (tc_lookup (.obj kvs)) ∨
      ∃ tckvs : List (String × Json), tc_lookup (.obj kvs) =
        .ok (.obj tckvs))
    (hmaf : lookup_failure (maf_lookup (.obj kvs) v) ∨
      ∃ m : Json, maf_lookup (.obj kvs) v = .ok m) :
    ∃ out, update_variant_info (.obj kvs) v = .ok out ∧
      (lookup_failure (tc_lookup (.obj kvs)) →
        Dict.get out "gene_id" = some .null ∧
        Dict.get out "gene_symbol" = some .null ∧
        Dict.get out "biotype" = some .null ∧
        Dict.get out "impact" = some .null) ∧
      (lookup_failure (maf_lookup (.obj kvs) v) →
        Dict.get out "minor_allele_frequency" = some .null) := by
  obtain ⟨tck, htck, htcnull⟩ :
      ∃ tck : List (String × Json), extract_tc (.obj kvs) =
        .ok (.obj tck) ∧
        (lookup_failure (tc_lookup (.obj kvs)) → tck = []) := by
    rcases htc with h | ⟨tckvs, h⟩
    · rcases h with h | h
      · exact ⟨[], by simp [extract_tc, h, catchKI], fun _ => rfl⟩
      · exact ⟨[], by simp [extract_tc, h, catchKI], fun _ => rfl⟩
    · refine ⟨tckvs, by simp [extract_tc, h, catchKI], ?_⟩
      intro hf
      rcases hf with hf | hf <;> rw [hf] at h <;> cases h
  obtain ⟨m, hm, hmnull⟩ :
      ∃ m : Json, extract_maf (.obj kvs) v = .ok m ∧
        (lookup_failure (maf_lookup (.obj kvs) v) → m = .null) := by
    rcases hmaf with h | ⟨m, h⟩
    · rcases h with h | h
      · exact ⟨.null, by simp [extract_maf, h, catchKI], fun _ => rfl⟩
      · exact ⟨.null, by simp [extract_maf, h, catchKI], fun _ => rfl⟩
    · refine ⟨m, by simp [extract_maf, h, catchKI], ?_⟩
      intro hf
      rcases hf with hf | hf <;> rw [hf] at h <;> cases h
  have hupd : update_variant_info (.obj kvs) v = .ok (Dict.update v
      (annotation_update
        (match Dict.get tck "gene_id" with | some x => x | none => .null)
        (match Dict.get tck "gene_symbol" with
         | some x => x | none => .null)
        (match Dict.get tck "biotype" with | some x => x | none => .null)
        (match Dict.get tck "impact" with | some x => x | none => .null)
        (match Dict.get kvs "most_severe_consequence" with
         | some x => x | none => .null)
        m)) := by
    simp only [update_variant_info, bind, Except.bind, htck, hm]
    rfl
  refine ⟨_, hupd, ?_, ?_⟩
  · intro hf
    obtain rfl := htcnull hf
    have hA := Dict.get_annotation_update v .null .null .null .null
      (match Dict.get kvs "most_severe_consequence" with
       | some x => x | none => .null) m
    exact ⟨hA.1, hA.2.1, hA.2.2.1, hA.2.2.2.1⟩
  · intro hf
    obtain rfl := hmnull hf
    exact (Dict.get_annotation_update v _ _ _ _ _ .null).2.2.2.2.2

/-- Witness: the one-sided case the claim is chiefly about — a response
carrying well-formed `transcript_consequences` but no
`colocated_variants`: the MAF lookup fails with `KeyError` and the merged
record gets a null `minor_allele_frequency`, without raising. -/
theorem claim_C5_graceful_degradation_witness :
    lookup_failure (maf_lookup (.obj [("transcript_consequences",
        .arr [.obj [("gene_id", Json.str "G1")]])]) scenarioA_variant) ∧
    ∃ out, update_variant_info (.obj [("transcript_consequences",
          .arr [.obj [("gene_id", Json.str "G1")]])]) scenarioA_variant =
        .ok out ∧
      (lookup_failure (tc_lookup (.obj [("transcript_consequences",
          .arr [.obj [("gene_id", Json.str "G1")]])])) →
        Dict.get out "gene_id" = some .null ∧
        Dict.get out "gene_symbol" = some .null ∧
        Dict.get out "biotype" = some .null ∧
        Dict.get out "impact" = some .null) ∧
      (lookup_failure (maf_lookup (.obj [("transcript_consequences",
          .arr [.obj [("gene_id", Json.str "G1")]])]) scenarioA_variant) →
        Dict.get out "minor_allele_frequency" = some .null) :=
  ⟨Or.inl rfl, claim_C5_graceful_degradation
    [("transcript_consequences", .arr [.obj [("gene_id", Json.str "G1")]])]
    scenarioA_variant
    (Or.inr ⟨[("gene_id", Json.str "G1")], rfl⟩)
    (Or.inl (Or.inl rfl))⟩

/-- C5 counterexample: a response in which `colocated_variants` is missing
(so the claim as stated applies) but `transcript_consequences[0]` is the
string `"x"`: line 133's `.get("gene_id")` on that string raises an
`AttributeError` that no handler catches — the client raises, and the
lookup-adjacent failure does propagate, refuting the unrestricted claim. -/
theorem claim_C5_counterexample :
    update_variant_info (.obj [("transcript_consequences",
      .arr [Json.str "x"])]) scenarioA_variant = .error .attributeError :=
  rfl

/-- Python `lst[-1]` on a non-empty list selects the last element. -/
theorem jGetItem_last (x : Json) (xs : List Json) :
    jGetItem (.arr (x :: xs)) (.num (-1)) =
      .ok ((x :: xs).getLast (List.cons_ne_nil x xs)) := by
  have hden : ((-1 : ℚ)).den = 1 := rfl
  have hnum : ((-1 : ℚ)).num = -1 := rfl
  simp only [jGetItem, listIndex, hden, hnum, if_pos rfl, if_true]
  rw [if_pos (by norm_num : (-1:ℤ) < 0)]
  have hj : (-1 : ℤ) + ((x :: xs).length : ℤ) = (xs.length : ℤ) := by
    simp [List.length_cons]
  rw [hj]
  rw [if_pos (Int.ofNat_nonneg xs.length)]
  have ht : ((xs.length : ℤ)).toNat = xs.length := Int.toNat_ofNat xs.length
  rw [ht]
  have hg : (x :: xs).get? xs.length =
      some ((x :: xs).getLast (List.cons_ne_nil x xs)) := by
    rw [List.getLast_eq_getElem]
    simp [List.get?_eq_getElem? ]
  rw [hg]

/-- C7: the extraction paths.  On Scenario A's response the client sends
one admitted GET for `1:g.100A>T` with `pick=1` and merges
`gene_id = "G1"`, the other three consequence fields from
`transcript_consequences[0]`, `most_severe_consequence` from the top
level, and `minor_allele_frequency = 0.05` taken from
`colocated_variants[-1]["frequencies"]["T"]["af"]`; and in general the
`[-1]` subscript used for `colocated_variants` selects the LAST element of
a non-empty array. -/
theorem claim_C7_extraction_paths :
    (fetch_variant default_server (.success scenarioA_response) []
        scenarioA_variant = .ok
      ([.admitted, .sent
          "https://grch37.rest.ensembl.org/vep/human/hgvs/1:g.100A>T?pick=1"],
        scenarioA_variant ++
          [("gene_id", .str "G1"), ("gene_symbol", .str "GENE1"),
           ("biotype", .str "protein_coding"), ("impact", .str "MODERATE"),
           ("most_severe_consequence", .str "missense_variant"),
           ("minor_allele_frequency", .num (1/20))])) ∧
    (Dict.get (scenarioA_variant ++
          [("gene_id", .str "G1"), ("gene_symbol", .str "GENE1"),
           ("biotype", .str "protein_coding"), ("impact", .str "MODERATE"),
           ("most_severe_consequence", .str "missense_variant"),
           ("minor_allele_frequency", .num (1/20))]) "gene_id" =
        some (.str "G1") ∧
      Dict.get (scenarioA_variant ++
          [("gene_id", .str "G1"), ("gene_symbol", .str "GENE1"),
           ("biotype", .str "protein_coding"), ("impact", .str "MODERATE"),
           ("most_severe_consequence", .str "missense_variant"),
           ("minor_allele_frequency", .num (1/20))])
        "minor_allele_frequency" = some (.num (1/20))) ∧
    (∀ (x : Json) (xs : List Json),
        jGetItem (.arr (x :: xs)) (.num (-1)) =
          .ok ((x :: xs).getLast (List.cons_ne_nil x xs))) :=
  ⟨rfl, ⟨rfl, rfl⟩, jGetItem_last⟩

/-- C6: the merge depends only on the fresh response and the record's
non-annotation fields.  (i) Two records agreeing outside the six
annotation fields receive identical annotation values from the same
response — prior annotation values never leak into the result; (ii) the
merge never duplicates a field; (iii) when the response lacks every
annotation field (the empty payload), the annotation fields of the result
are null, not the record's previous values. -/
theorem claim_C6_merge_depends_only_on_response :
    (∀ (vep : Json) (v v' out out' : Dict),
        (∀ k : String, k ∉ annotation_keys → Dict.get v k = Dict.get v' k) →
        update_variant_info vep v = .ok out →
        update_variant_info vep v' = .ok out' →
        ∀ k ∈ annotation_keys, Dict.get out k = Dict.get out' k) ∧
    (∀ (vep : Json) (v out : Dict), update_variant_info vep v = .ok out →
        (v.map Prod.fst).Nodup → (out.map Prod.fst).Nodup) ∧
    (∀ v : Dict, update_variant_info emptyDict v = .ok
        (Dict.update v (annotation_update .null .null .null .null .null
          .null)) ∧
      ∀ k ∈ annotation_keys,
        Dict.get (Dict.update v (annotation_update .null .null .null .null
          .null .null)) k = some .null) := by
  refine ⟨?_, ?_, ?_⟩
  · intro vep v v' out out' hframe h h'
    obtain ⟨g1, g2, g3, g4, g5, g6, rfl, hgen⟩ :=
      update_variant_info_ok vep v out h
    have halt : Dict.get v' "alt" = Dict.get v "alt" :=
      (hframe "alt" (by decide)).symm
    rw [hgen v' halt] at h'
    obtain rfl : Dict.update v' (annotation_update g1 g2 g3 g4 g5 g6) =
        out' := by
      injection h'
    intro k hk
    have hA := Dict.get_annotation_update v g1 g2 g3 g4 g5 g6
    have hB := Dict.get_annotation_update v' g1 g2 g3 g4 g5 g6
    simp only [annotation_keys, List.mem_cons, List.not_mem_nil,
      or_false] at hk
    rcases hk with rfl | rfl | rfl | rfl | rfl | rfl
    · rw [hA.1, hB.1]
    · rw [hA.2.1, hB.2.1]
    · rw [hA.2.2.1, hB.2.2.1]
    · rw [hA.2.2.2.1, hB.2.2.2.1]
    · rw [hA.2.2.2.2.1, hB.2.2.2.2.1]
    · rw [hA.2.2.2.2.2, hB.2.2.2.2.2]
  · intro vep v out h hnd
    obtain ⟨g1, g2, g3, g4, g5, g6, rfl, -⟩ :=
      update_variant_info_ok vep v out h
    exact Dict.nodup_keys_update v _ hnd
  · intro v
    exact ⟨update_variant_info_emptyDict v, update_emptyDict_nulls v⟩

/-- Witness: two records sharing `alt` but carrying different stale
`gene_id` values receive the same (fresh, null) annotation. -/
theorem claim_C6_merge_depends_only_on_response_witness :
    Dict.get (Dict.update [("alt", Json.str "T"),
        ("gene_id", Json.str "OLD")]
      (annotation_update .null .null .null .null .null .null)) "gene_id" =
    Dict.get (Dict.update [("alt", Json.str "T"),
        ("gene_id", Json.str "STALE")]
      (annotation_update .null .null .null .null .null .null)) "gene_id" :=
  claim_C6_merge_depends_only_on_response.1 emptyDict
    [("alt", Json.str "T"), ("gene_id", Json.str "OLD")]
    [("alt", Json.str "T"), ("gene_id", Json.str "STALE")] _ _
    (by
      intro k hk
      simp only [annotation_keys, List.mem_cons, List.not_mem_nil,
        or_false] at hk
      push_neg at hk
      have h1 : ("gene_id" == k) = false := by
        simpa [BEq.beq] using fun h => hk.1 h.symm
      simp [Dict.get, h1])
    (update_variant_info_emptyDict _) (update_variant_info_emptyDict _)
    "gene_id" (by decide)

/-- C8: the merge writes only the six annotation fields — every other
field of the record keeps its value — and the orchestrator hands the
annotated result set unchanged to the report sink. -/
theorem claim_C8_frame :
    (∀ (vep : Json) (v out : Dict), update_variant_info vep v = .ok out →
        ∀ k : String, k ∉ annotation_keys → Dict.get out k = Dict.get v k) ∧
    (∀ (vepOf : ℕ → Json) (order : List ℕ) (variants ann : List Dict),
        process_variants vepOf order variants = .ok ann →
        main_run vepOf order variants = (0, write_to_tsv ann)) := by
  constructor
  · intro vep v out h k hk
    obtain ⟨g1, g2, g3, g4, g5, g6, rfl, -⟩ :=
      update_variant_info_ok vep v out h
    exact Dict.get_annotation_update_ne v g1 g2 g3 g4 g5 g6 k hk
  · intro vepOf order variants ann h
    simp [main_run, h]

/-- Witness: the identifying `chrom` field survives the merge, and a
one-record run hands its result unchanged to the sink. -/
theorem claim_C8_frame_witness :
    Dict.get (Dict.update scenarioA_variant
        (annotation_update .null .null .null .null .null .null)) "chrom" =
      Dict.get scenarioA_variant "chrom" ∧
    main_run (fun _ => emptyDict) [0] [scenarioA_variant] =
      (0, write_to_tsv [Dict.update scenarioA_variant
        (annotation_update .null .null .null .null .null .null)]) :=
  ⟨claim_C8_frame.1 emptyDict scenarioA_variant _
      (update_variant_info_emptyDict scenarioA_variant) "chrom" (by decide),
    claim_C8_frame.2 (fun _ => emptyDict) [0] [scenarioA_variant] _ rfl⟩

/-! ### Orchestrator lemmas -/

/-- The identifying fields of a completed task's result (junk for a task
that raised; such tasks never contribute to a successful batch). -/
def result_id_fields : Except PyErr Dict →
    Option Json × Option Json × Option Json × Option Json
  | .ok w => id_fields w
  | .error _ => (none, none, none, none)

theorem id_fields_update_variant_info (vep : Json) (v out : Dict)
    (h : update_variant_info vep v = .ok out) :
    id_fields out = id_fields v := by
  obtain ⟨g1, g2, g3, g4, g5, g6, rfl, -⟩ :=
    update_variant_info_ok vep v out h
  unfold id_fields
  rw [Dict.get_annotation_update_ne v g1 g2 g3 g4 g5 g6 "chrom" (by decide),
    Dict.get_annotation_update_ne v g1 g2 g3 g4 g5 g6 "pos" (by decide),
    Dict.get_annotation_update_ne v g1 g2 g3 g4 g5 g6 "ref" (by decide),
    Dict.get_annotation_update_ne v g1 g2 g3 g4 g5 g6 "alt" (by decide)]

theorem range_filterMap_get {α : Type _} (l : List α) :
    (List.range l.length).filterMap (fun i => l.get? i) = l := by
  induction l with
  | nil => rfl
  | cons x xs ih =>
    rw [List.length_cons, List.range_succ_eq_map, List.filterMap_cons]
    simp only [List.get?_cons_zero, List.filterMap_map]
    have hcomp : ((fun i => (x :: xs).get? i) ∘ Nat.succ) =
        fun i => xs.get? i := funext (fun i => rfl)
    rw [hcomp, ih]

theorem collect_results_ok (l : List (Except PyErr Dict)) (out : List Dict)
    (h : collect_results l = .ok out) : l = out.map Except.ok := by
  induction l generalizing out with
  | nil =>
    simp only [collect_results] at h
    obtain rfl : ([] : List Dict) = out := by injection h
    rfl
  | cons t ts ih =>
    cases t with
    | error e => simp [collect_results, bind, Except.bind] at h
    | ok r =>
      simp only [collect_results, bind, Except.bind] at h
      cases hc : collect_results ts with
      | error e => rw [hc] at h; cases h
      | ok rs =>
        rw [hc] at h
        dsimp only at h
        obtain rfl : r :: rs = out := by injection h
        rw [List.map_cons, ← ih rs hc]

/-- C2: a completed batch contains exactly one result per input record:
the result list has length N and its identifying fields (chromosome,
position, reference, alternate) are a permutation of the inputs' — a
bijection between results and input records, in arbitrary completion
order. -/
theorem claim_C2_completeness (vepOf : ℕ → Json) (order : List ℕ)
    (variants : List Dict) (out : List Dict)
    (hord : order.Perm (List.range variants.length))
    (h : process_variants vepOf order variants = .ok out) :
    out.length = variants.length ∧
      (out.map id_fields).Perm (variants.map id_fields) := by
  simp only [process_variants] at h
  set tasks := (variants.enum).map
    (fun p => update_variant_info (vepOf p.1) p.2) with htasks
  have hlen : tasks.length = variants.length := by
    rw [htasks, List.length_map, List.enum_length]
  have hperm : (order.filterMap (fun i => tasks.get? i)).Perm tasks := by
    have h1 := hord.filterMap (fun i => tasks.get? i)
    rw [← hlen] at h1
    rwa [range_filterMap_get tasks] at h1
  have hl : order.filterMap (fun i => tasks.get? i) = out.map Except.ok :=
    collect_results_ok _ out h
  rw [hl] at hperm
  refine ⟨?_, ?_⟩
  · have h2 := hperm.length_eq
    rw [List.length_map] at h2
    rw [h2, hlen]
  · have hmap := hperm.map result_id_fields
    rw [List.map_map] at hmap
    have hcomp : (result_id_fields ∘ Except.ok) =
        (id_fields : Dict → _) := funext (fun w => rfl)
    rw [hcomp] at hmap
    have htv : tasks.map result_id_fields = variants.map id_fields := by
      rw [htasks, List.map_map]
      have hc : ∀ p ∈ variants.enum,
          (result_id_fields ∘ fun p => update_variant_info (vepOf p.1) p.2)
            p = (id_fields ∘ Prod.snd) p := by
        intro p hp
        have hmem : update_variant_info (vepOf p.1) p.2 ∈ tasks := by
          rw [htasks]
          exact List.mem_map_of_mem _ hp
        have hmem2 : update_variant_info (vepOf p.1) p.2 ∈
            out.map Except.ok := (hperm.mem_iff).mpr hmem
        obtain ⟨w, -, hw⟩ := List.mem_map.mp hmem2
        simp only [Function.comp]
        rw [← hw]
        show id_fields w = id_fields p.2
        exact id_fields_update_variant_info (vepOf p.1) p.2 w hw.symm
      rw [List.map_congr_left hc, ← List.map_map, List.enum_map_snd]
    rw [htv] at hmap
    exact hmap

/-- The variant record of Scenario B (identifier `1:g.200C>G`). -/
def scenarioB_variant : Dict :=
  [("chrom", .str "1"), ("pos", .num 200), ("ref", .str "C"),
   ("alt", .str "G"), ("hgvs", .str "1:g.200C>G")]

/-- Witness: a two-record batch completing in reverse order returns two
results whose identifying fields are a permutation of the inputs'. -/
theorem claim_C2_completeness_witness :
    ([1, 0] : List ℕ).Perm
      (List.range [scenarioA_variant, scenarioB_variant].length) ∧
    ([Dict.update scenarioB_variant
        (annotation_update .null .null .null .null .null .null),
      Dict.update scenarioA_variant
        (annotation_update .null .null .null .null .null .null)].length =
      [scenarioA_variant, scenarioB_variant].length ∧
    ([Dict.update scenarioB_variant
        (annotation_update .null .null .null .null .null .null),
      Dict.update scenarioA_variant
        (annotation_update .null .null .null .null .null .null)].map
        id_fields).Perm
      ([scenarioA_variant, scenarioB_variant].map id_fields)) :=
  ⟨by decide, claim_C2_completeness (fun _ => emptyDict) [1, 0]
    [scenarioA_variant, scenarioB_variant] _ (by decide) rfl⟩

/-- C9: on the empty input sequence the orchestrator returns the empty
result set, the sink performs no write, and the process exits 0. -/
theorem claim_C9_empty_input (vepOf : ℕ → Json) :
    process_variants vepOf [] [] = .ok [] ∧ write_to_tsv [] = none ∧
    main_run vepOf [] [] = (0, none) := ⟨rfl, rfl, rfl⟩
